import Mathlib

/-!
Verification of the useZodForm field-state reconciliation engine
(src/src/index.ts, second published revision: the one exporting
getField, getForm, getError, setField, setError, isDirty, isTouched,
isValid, isSubmitting).

The TypeScript source is shallowly embedded here: JavaScript objects
used as string-keyed records become association lists with
first-occurrence lookup and update-or-append assignment (the JS
runtime never produces duplicate keys, so these coincide with object
semantics); the zod schema is an opaque capability record, exactly as
the hook consumes it (per-field safeParse, whole-record safeParse,
description, default value); the two module-level mutable bindings
valid and submitting are a separate Globals record threaded through
the handlers, so that several hook instances share one Globals value
just as they share the module bindings; code paths that would raise a
TypeError (property access on an undefined field schema) return a
distinguished thrown result carrying the ref mutations already made.
-/

namespace UseZodForm

/-- JavaScript numbers as produced by the Number() coercion used by the
hook: either NaN or an integer value.  The hook never does arithmetic
on them, it only stores them and hands them to the validator. -/
inductive JsNum where
  | nan : JsNum
  | int : Int → JsNum
deriving DecidableEq, Repr

/-- The values the engine stores: raw strings from the DOM, booleans
from checkbox coercion, numbers from numeric coercion, and the
JavaScript undefined that an absent object property reads as. -/
inductive JsValue where
  | str : String → JsValue
  | boolean : Bool → JsValue
  | num : JsNum → JsValue
  | undef : JsValue
deriving DecidableEq, Repr

/-- A JavaScript object used as a string-keyed map. -/
abbrev JsObj (α : Type) : Type := List (String × α)

/-- Property read, obj[key]: first binding wins (JS objects are
duplicate-free, so this is exact). -/
def jsGet {α : Type} : JsObj α → String → Option α
  | [], _ => none
  | p :: rest, k => if p.1 = k then some p.2 else jsGet rest k

/-- The JS `key in obj` test. -/
def jsHas {α : Type} : JsObj α → String → Bool
  | [], _ => false
  | p :: rest, k => if p.1 = k then true else jsHas rest k

/-- Property assignment obj[key] = v, also the spread-merge
`{ ...obj, [key]: v }`: update in place when the key exists, append
otherwise. -/
def jsSet {α : Type} : JsObj α → String → α → JsObj α
  | [], k, v => [(k, v)]
  | p :: rest, k, v => if p.1 = k then (k, v) :: rest else p :: jsSet rest k v

/-- Reading a value, with JS undefined for an absent property. -/
def jsGetV (m : JsObj JsValue) (k : String) : JsValue :=
  match jsGet m k with
  | some v => v
  | none => JsValue.undef

/-- Source helper getByValue: `if (key in obj) return obj[key]; return ""`. -/
def getByValue (obj : JsObj String) (key : String) : String :=
  match jsGet obj key with
  | some s => s
  | none => ""

/-- One decimal digit. -/
def decDigit (c : Char) : Option Nat :=
  if c.isDigit then some (c.toNat - 48) else none

/-- Parse a nonempty all-digit character list. -/
def digitsToNat : List Char → Option Nat
  | [] => none
  | cs => cs.foldl
      (fun acc c =>
        match acc, decDigit c with
        | some n, some d => some (10 * n + d)
        | _, _ => none)
      (some 0)

/-- Integer-literal parsing with optional sign. -/
def parseIntString (s : String) : Option Int :=
  match s.data with
  | [] => none
  | c :: rest =>
    if c = '-' then (digitsToNat rest).map (fun n => -(n : Int))
    else if c = '+' then (digitsToNat rest).map (fun n => (n : Int))
    else (digitsToNat (c :: rest)).map (fun n => (n : Int))

/-- Leading and trailing whitespace removal, as ToNumber performs
before reading a numeric literal. -/
def jsTrim (s : String) : String :=
  String.mk (((s.data.dropWhile Char.isWhitespace).reverse.dropWhile Char.isWhitespace).reverse)

/-- The JavaScript Number() conversion on strings, on the fragment the
engine exercises: trimmed empty input reads as 0, an integer literal
reads as that integer, anything else is NaN (no fallback to zero). -/
def jsStringToNumber (s : String) : JsNum :=
  let t := jsTrim s
  if t = "" then JsNum.int 0
  else
    match parseIntString t with
    | some n => JsNum.int n
    | none => JsNum.nan

/-- Number() on an arbitrary stored value. -/
def jsToNumber : JsValue → JsNum
  | JsValue.str s => jsStringToNumber s
  | JsValue.boolean true => JsNum.int 1
  | JsValue.boolean false => JsNum.int 0
  | JsValue.num n => n
  | JsValue.undef => JsNum.nan

/-- One zod issue: a path into the record and a human message. -/
structure Rejection where
  path : List String
  message : String
deriving DecidableEq, Repr

/-- Result of a zod safeParse: success carrying the coerced data, or
failure carrying the issue list. -/
inductive Outcome (α : Type) where
  | accepted : α → Outcome α
  | rejected : List Rejection → Outcome α
deriving DecidableEq

/-- The `.success` flag of a safeParse result. -/
def Outcome.isAccepted {α : Type} : Outcome α → Bool
  | Outcome.accepted _ => true
  | Outcome.rejected _ => false

/-- One entry of schema.shape: the per-field zod type as the hook
consumes it.  defaultValue stands for getDefaultValue applied to the
entry with the source fallback to the empty string, description for
the zod describe label with its fallback. -/
structure FieldSchema where
  safeParse : JsValue → Outcome JsValue
  description : String
  defaultValue : JsValue

/-- The zod object schema as the hook consumes it: its shape record
and its whole-record safeParse. -/
structure Schema where
  shape : JsObj FieldSchema
  safeParse : JsObj JsValue → Outcome (JsObj JsValue)

/-- getDefaults(schema): one default per shape entry. -/
def initialValues (S : Schema) : JsObj JsValue :=
  S.shape.map (fun p => (p.1, p.2.defaultValue))

/-- Source objectToBoolean: Object.keys reduced to an all-false map. -/
def objectToBoolean (m : JsObj JsValue) : JsObj Bool :=
  (m.map Prod.fst).foldl (fun acc k => jsSet acc k false) []

/-- Source objectToString: Object.keys reduced to an all-empty map. -/
def objectToString (m : JsObj JsValue) : JsObj String :=
  (m.map Prod.fst).foldl (fun acc k => jsSet acc k "") []

/-- The two module-level mutable bindings of the source file, shared
by every hook instance in the process. -/
structure Globals where
  valid : Bool
  submitting : Bool
deriving DecidableEq, Repr

/-- Per-instance state: the values, touched, dirty refs, the errors
React state, and the previousValue ref written on focus. -/
structure Inst where
  values : JsObj JsValue
  touched : JsObj Bool
  dirty : JsObj Bool
  errors : JsObj String
  previousValue : String
deriving DecidableEq, Repr

/-- The state a freshly constructed hook instance holds. -/
def initState (S : Schema) : Inst :=
  { values := initialValues S
    touched := objectToBoolean (initialValues S)
    dirty := objectToBoolean (initialValues S)
    errors := objectToString (initialValues S)
    previousValue := "" }

/-- The module-level bindings at load time. -/
def initGlobals : Globals := { valid := false, submitting := false }

/-- The event target the rendering layer hands the handlers:
`{ target: { name, value, type, tagName, checked } }`.  Per the DOM,
value is always a string and checked a boolean on form controls. -/
structure EventTarget where
  name : String
  value : String
  tagName : String
  type : String
  checked : Bool
deriving DecidableEq, Repr

/-- The inline coercion of handleBlur, lines 472 and 477 to 484 of the
source: start from `e.target.value || ""` (the identity on DOM string
values), then inside an INPUT replace a checkbox value by
`!!e.target.checked` and a numeric value by `Number(value)`. -/
def blurCoerce (e : EventTarget) : JsValue :=
  let v0 : JsValue := JsValue.str e.value
  if e.tagName = "INPUT" then
    let v1 := if e.type = "checkbox" then JsValue.boolean e.checked else v0
    let v2 := if e.type = "number" then JsValue.num (jsToNumber v1) else v1
    v2
  else v0

/-- The inline coercion of handleChange, lines 410 to 420 of the
source: start from `el.value`, then inside an INPUT replace a checkbox
value by `el.checked` and a numeric value by `Number(value)`. -/
def changeCoerce (e : EventTarget) : JsValue :=
  let v0 : JsValue := JsValue.str e.value
  if e.tagName = "INPUT" then
    let v1 := if e.type = "checkbox" then JsValue.boolean e.checked else v0
    let v2 := if e.type = "number" then JsValue.num (jsToNumber v1) else v1
    v2
  else v0

/-- Field-level issue concatenation of handleBlur and handleChange:
`errors.reduce((acc, i) => (acc += i.message), "")`, direct
concatenation in validator order with no separator. -/
def concatMessages (issues : List Rejection) : String :=
  issues.foldl (fun acc i => acc ++ i.message) ""

/-- The submit handler joins an issue path with dashes:
`i.path.join("-")`. -/
def joinPath (path : List String) : String :=
  String.intercalate "-" path

/-- The error map handleSubmit builds on rejection:
`result.error.errors.reduce((acc, i) => ({ ...acc, [i.path.join("-")]: i.message }), {})`. -/
def buildSubmitErrors (issues : List Rejection) : JsObj String :=
  issues.foldl (fun acc i => jsSet acc (joinPath i.path) i.message) []

/-- Outcome of a handler whose body can raise a TypeError: ok, or
thrown with the ref mutations already performed before the throw
(React refs keep those across the exception). -/
inductive HResult where
  | ok : Globals → Inst → HResult
  | thrown : Globals → Inst → HResult
deriving DecidableEq, Repr

/-- Whether the handler returned without throwing. -/
def HResult.isOk : HResult → Bool
  | HResult.ok _ _ => true
  | HResult.thrown _ _ => false

/-- The module-level bindings after the handler ran. -/
def HResult.g : HResult → Globals
  | HResult.ok g _ => g
  | HResult.thrown g _ => g

/-- The instance state after the handler ran. -/
def HResult.st : HResult → Inst
  | HResult.ok _ st => st
  | HResult.thrown _ st => st

/-- Result of handleSubmit: the module bindings, the instance state,
and the list of calls made to the injected onSubmit callback. -/
structure SubmitResult where
  g : Globals
  st : Inst
  calls : List (JsObj JsValue)
deriving DecidableEq, Repr

/-- Result of setField: its boolean return value and the instance
state, or thrown when the field-schema lookup raised. -/
inductive SetFieldResult where
  | ok : Bool → Inst → SetFieldResult
  | thrown : Inst → SetFieldResult
deriving DecidableEq, Repr

/-- The boolean setField returned, none when it threw. -/
def SetFieldResult.res : SetFieldResult → Option Bool
  | SetFieldResult.ok b _ => some b
  | SetFieldResult.thrown _ => none

/-- The instance state after setField ran. -/
def SetFieldResult.st : SetFieldResult → Inst
  | SetFieldResult.ok _ st => st
  | SetFieldResult.thrown st => st

/-- handleSubmit, lines 373 to 402 of the source.  preventDefault and
the native currentTarget.reset are rendering-layer effects outside the
engine.  On acceptance it calls onSubmit with result.data, resets the
three refs and the errors state to their construction expressions and
clears both module bindings; on rejection it replaces the error map by
the joined-path issue map and clears both module bindings. -/
def handleSubmit (S : Schema) (g : Globals) (st : Inst) : SubmitResult :=
  let g1 : Globals := { g with submitting := true }
  match S.safeParse st.values with
  | Outcome.accepted data =>
      { g := { g1 with submitting := false, valid := false }
        st :=
          { values := initialValues S
            touched := objectToBoolean (initialValues S)
            dirty := objectToBoolean (initialValues S)
            errors := objectToString (initialValues S)
            previousValue := st.previousValue }
        calls := [data] }
  | Outcome.rejected issues =>
      { g := { g1 with valid := false, submitting := false }
        st := { st with errors := buildSubmitErrors issues }
        calls := [] }

/-- handleFocus, lines 455 to 465 of the source: for a truthy name,
clear the error entry, mark touched, and record the current value in
the previousValue ref.  No validation runs and the module bindings are
untouched, which the signature makes plain. -/
def handleFocus (e : EventTarget) (st : Inst) : Inst :=
  if e.name ≠ "" then
    { st with
      errors := jsSet st.errors e.name ""
      touched := jsSet st.touched e.name true
      previousValue := e.value }
  else st

/-- handleBlur, lines 467 to 518 of the source.  Empty name: early
return.  Otherwise: raw value compared to the previousValue ref to set
dirty, coercion, touched set, coerced value merged into values; then
`schema.shape[name].safeParse` which throws for an undeclared name
(after those ref mutations); on field acceptance the valid binding is
recomputed from a whole-record parse of the updated values and the
error entry is cleared, on rejection the valid binding is cleared and
the error entry set to the concatenated messages. -/
def handleBlur (S : Schema) (e : EventTarget) (g : Globals) (st : Inst) : HResult :=
  if e.name = "" then HResult.ok g st
  else
    let raw := e.value
    let dirty1 := if st.previousValue ≠ raw then jsSet st.dirty e.name true else st.dirty
    let cv := blurCoerce e
    let touched1 := jsSet st.touched e.name true
    let values1 := jsSet st.values e.name cv
    let st1 : Inst := { st with dirty := dirty1, touched := touched1, values := values1 }
    match jsGet S.shape e.name with
    | none => HResult.thrown g st1
    | some fs =>
      match fs.safeParse cv with
      | Outcome.accepted _ =>
          HResult.ok { g with valid := (S.safeParse values1).isAccepted }
            { st1 with errors := jsSet st.errors e.name "" }
      | Outcome.rejected issues =>
          HResult.ok { g with valid := false }
            { st1 with errors := jsSet st.errors e.name (concatMessages issues) }

/-- handleChange, lines 404 to 453 of the source.  Empty name: early
return.  The field-schema lookup and safeParse run before any ref
mutation, so an undeclared name throws with the state unchanged.  The
valid and submitting bindings are never written by this handler. -/
def handleChange (S : Schema) (e : EventTarget) (g : Globals) (st : Inst) : HResult :=
  if e.name = "" then HResult.ok g st
  else
    let cv := changeCoerce e
    match jsGet S.shape e.name with
    | none => HResult.thrown g st
    | some fs =>
      let touched1 := jsSet st.touched e.name true
      let dirty1 := jsSet st.dirty e.name true
      let values1 := jsSet st.values e.name cv
      let st1 : Inst := { st with dirty := dirty1, touched := touched1, values := values1 }
      match fs.safeParse cv with
      | Outcome.accepted _ =>
          HResult.ok g { st1 with errors := jsSet st.errors e.name "" }
      | Outcome.rejected issues =>
          HResult.ok g { st1 with errors := jsSet st.errors e.name (concatMessages issues) }

/-- setField, lines 316 to 342 of the source: a falsy name returns
false at once; otherwise the field-schema lookup throws for an
undeclared name before any mutation; on field acceptance the raw
argument is merged into values, touched and dirty are set, the error
entry cleared and true returned; on rejection the state is untouched
and false returned. -/
def setField (S : Schema) (st : Inst) (name : String) (value : JsValue) : SetFieldResult :=
  if name = "" then SetFieldResult.ok false st
  else
    match jsGet S.shape name with
    | none => SetFieldResult.thrown st
    | some fs =>
      match fs.safeParse value with
      | Outcome.accepted _ =>
          SetFieldResult.ok true
            { st with
              values := jsSet st.values name value
              touched := jsSet st.touched name true
              dirty := jsSet st.dirty name true
              errors := jsSet st.errors name "" }
      | Outcome.rejected _ => SetFieldResult.ok false st

/-- isSubmitting, line 344: reads the module-level submitting binding. -/
def isSubmitting (g : Globals) : Bool := g.submitting

/-- isValid, lines 346 to 347: without a name it reads the
module-level valid binding; with a name it runs the field schema live
on the stored value, throwing (none) for an undeclared name. -/
def isValid (S : Schema) (g : Globals) (st : Inst) : Option String → Option Bool
  | none => some g.valid
  | some n =>
    match jsGet S.shape n with
    | none => none
    | some fs => some (fs.safeParse (jsGetV st.values n)).isAccepted

/-- isTouched, lines 349 to 359: the no-argument form counts
`Object.keys({ ...touched.current }).filter(Boolean)`, that is the
nonempty key names, not the true flags; the named form reads the entry
with a false default. -/
def isTouched (st : Inst) : Option String → Bool
  | none => decide (0 < ((st.touched.map Prod.fst).filter (fun k => !(k = ""))).length)
  | some n =>
    match jsGet st.touched n with
    | some b => b
    | none => false

/-- isDirty, lines 361 to 371: same shape as isTouched over the dirty
map. -/
def isDirty (st : Inst) : Option String → Bool
  | none => decide (0 < ((st.dirty.map Prod.fst).filter (fun k => !(k = ""))).length)
  | some n =>
    match jsGet st.dirty n with
    | some b => b
    | none => false

/-- The hook mode. -/
inductive Mode where
  | controlled : Mode
  | uncontrolled : Mode
deriving DecidableEq, Repr

/-- The per-call field projection getField returns. -/
inductive UseZodField where
  | uncontrolledField : String → JsValue → String → String → UseZodField
  | controlledField : String → JsValue → String → String → UseZodField
deriving DecidableEq, Repr

/-- Whether a projection is the controlled, value-carrying variant. -/
def UseZodField.isControlled : UseZodField → Bool
  | UseZodField.uncontrolledField _ _ _ _ => false
  | UseZodField.controlledField _ _ _ _ => true

/-- getField, lines 291 to 310 of the source, with the declared
default override mode "uncontrolled" passed explicitly.  error comes
from getError (getByValue over the error map), value from getValue
with the nullish fallback to the empty string, label from the field
schema description; that description access throws (none) for an
undeclared name.  The branch condition is literally
`mode === "uncontrolled" || overrideMode !== "controlled"`. -/
def getField (S : Schema) (mode : Mode) (st : Inst) (name : String)
    (overrideMode : Mode) : Option UseZodField :=
  let error := getByValue st.errors name
  let value := let v := jsGetV st.values name
    if v = JsValue.undef then JsValue.str "" else v
  match jsGet S.shape name with
  | none => none
  | some fs =>
    let label := fs.description
    if mode = Mode.uncontrolled ∨ overrideMode ≠ Mode.controlled then
      some (UseZodField.uncontrolledField name value label error)
    else
      some (UseZodField.controlledField name value label error)

/-- The message of the last rejection in the list whose joined path is
the given key, if any: the value last-write-wins reduction leaves in
the submit error map. -/
def lastMatch (k : String) : List Rejection → Option String
  | [] => none
  | i :: rest =>
    match lastMatch k rest with
    | some m => some m
    | none => if joinPath i.path = k then some i.message else none

theorem jsGet_jsSet {α : Type} (m : JsObj α) (k k' : String) (v : α) :
    jsGet (jsSet m k v) k' = if k = k' then some v else jsGet m k' := by
  induction m with
  | nil =>
    by_cases h : k = k' <;> simp [jsSet, jsGet, h]
  | cons p rest ih =>
    simp only [jsSet]
    by_cases hpk : p.1 = k
    · rw [if_pos hpk]
      by_cases hkk : k = k'
      · simp [jsGet, hkk]
      · have hpk' : ¬ p.1 = k' := by rw [hpk]; exact hkk
        simp [jsGet, hkk, hpk']
    · rw [if_neg hpk]
      by_cases hpk' : p.1 = k'
      · have hkk : ¬ k = k' := by
          intro h
          exact hpk (by rw [h, hpk'])
        simp [jsGet, hpk', hkk]
      · simp [jsGet, hpk', ih]

theorem jsHas_eq_isSome {α : Type} (m : JsObj α) (k : String) :
    jsHas m k = (jsGet m k).isSome := by
  induction m with
  | nil => rfl
  | cons p rest ih =>
    by_cases h : p.1 = k <;> simp [jsHas, jsGet, h, ih]

theorem jsHas_jsSet_self {α : Type} (m : JsObj α) (k : String) (v : α) :
    jsHas (jsSet m k v) k = true := by
  rw [jsHas_eq_isSome, jsGet_jsSet]
  simp

theorem jsGet_foldl_jsSet (issues : List Rejection) (acc : JsObj String) (k : String) :
    jsGet (issues.foldl (fun a i => jsSet a (joinPath i.path) i.message) acc) k =
      match lastMatch k issues with
      | some m => some m
      | none => jsGet acc k := by
  induction issues generalizing acc with
  | nil => rfl
  | cons i rest ih =>
    simp only [List.foldl_cons, lastMatch]
    rw [ih]
    cases h : lastMatch k rest with
    | some m => rfl
    | none =>
      rw [jsGet_jsSet]
      by_cases hk : joinPath i.path = k <;> simp [hk]

theorem jsGet_buildSubmitErrors (issues : List Rejection) (k : String) :
    jsGet (buildSubmitErrors issues) k = lastMatch k issues := by
  unfold buildSubmitErrors
  rw [jsGet_foldl_jsSet]
  cases lastMatch k issues <;> rfl

theorem lastMatch_isSome_of_mem {issues : List Rejection} {i : Rejection}
    (h : i ∈ issues) : (lastMatch (joinPath i.path) issues).isSome = true := by
  induction issues with
  | nil => cases h
  | cons j rest ih =>
    simp only [lastMatch]
    cases hm : lastMatch (joinPath i.path) rest with
    | some m => rfl
    | none =>
      rcases List.mem_cons.mp h with h1 | h2
      · rw [h1]
        simp
      · have hs := ih h2
        rw [hm] at hs
        simp at hs

/-- A concrete field schema accepting every value, labelled A. -/
def fsAny : FieldSchema :=
  { safeParse := fun v => Outcome.accepted v
    description := "A"
    defaultValue := JsValue.str "" }

/-- A concrete field schema behaving like
z.string().min(1, "Too short").describe("First Name").default(""). -/
def fsFirstName : FieldSchema :=
  { safeParse := fun v =>
      match v with
      | JsValue.str s =>
        if s = "" then Outcome.rejected [⟨["firstName"], "Too short"⟩]
        else Outcome.accepted v
      | _ => Outcome.rejected [⟨["firstName"], "Expected string"⟩]
    description := "First Name"
    defaultValue := JsValue.str "" }

/-- A concrete one-field schema whose record validation accepts every
record unchanged. -/
def schemaA : Schema :=
  { shape := [("a", fsAny)]
    safeParse := fun m => Outcome.accepted m }

/-- A concrete one-field schema requiring a nonempty firstName, at the
field level and at the record level. -/
def schemaFirst : Schema :=
  { shape := [("firstName", fsFirstName)]
    safeParse := fun m =>
      match jsGetV m "firstName" with
      | JsValue.str s =>
        if s = "" then Outcome.rejected [⟨["firstName"], "Too short"⟩]
        else Outcome.accepted m
      | _ => Outcome.rejected [⟨["firstName"], "Expected string"⟩] }

/-- A text blur on the a field of schemaA with a fresh value. -/
def eGoodA : EventTarget :=
  { name := "a", value := "x", tagName := "INPUT", type := "text", checked := false }

/-- A text blur on firstName carrying the failing empty value. -/
def eBadFirst : EventTarget :=
  { name := "firstName", value := "", tagName := "INPUT", type := "text", checked := false }

/-- A text blur on firstName carrying a passing value. -/
def eAnn : EventTarget :=
  { name := "firstName", value := "Ann", tagName := "INPUT", type := "text", checked := false }

/-- An event naming a field no schema declares. -/
def eUnknown : EventTarget :=
  { name := "zzz", value := "x", tagName := "INPUT", type := "text", checked := false }

/-- An event whose target carries no field name. -/
def eEmpty : EventTarget :=
  { name := "", value := "x", tagName := "INPUT", type := "text", checked := false }

/-- A focus event on firstName carrying the pre-edit value Jo. -/
def eFocus : EventTarget :=
  { name := "firstName", value := "Jo", tagName := "INPUT", type := "text", checked := false }

/-- A schemaFirst instance that currently displays a validation
message for firstName. -/
def stWithError : Inst :=
  { initState schemaFirst with errors := [("firstName", "Too short")] }

/-- A checked checkbox event whose text value is irrelevant noise. -/
def eCheckbox : EventTarget :=
  { name := "a", value := "whatever", tagName := "INPUT", type := "checkbox", checked := true }

/-- A numeric input event carrying the text 42. -/
def eNumber : EventTarget :=
  { name := "a", value := "42", tagName := "INPUT", type := "number", checked := false }

theorem handleBlur_decl (S : Schema) (e : EventTarget) (g : Globals) (st : Inst)
    (fs : FieldSchema) (hne : e.name ≠ "") (hdecl : jsGet S.shape e.name = some fs) :
    (handleBlur S e g st).isOk = true ∧
    jsGet (handleBlur S e g st).st.values e.name = some (blurCoerce e) ∧
    jsGet (handleBlur S e g st).st.touched e.name = some true ∧
    (e.value ≠ st.previousValue → jsGet (handleBlur S e g st).st.dirty e.name = some true) ∧
    (∀ d, fs.safeParse (blurCoerce e) = Outcome.accepted d →
      jsGet (handleBlur S e g st).st.errors e.name = some "" ∧
      (handleBlur S e g st).g.valid =
        (S.safeParse (jsSet st.values e.name (blurCoerce e))).isAccepted) ∧
    (∀ issues, fs.safeParse (blurCoerce e) = Outcome.rejected issues →
      (handleBlur S e g st).g.valid = false ∧
      jsGet (handleBlur S e g st).st.errors e.name = some (concatMessages issues)) := by
  cases hp : fs.safeParse (blurCoerce e) with
  | accepted d =>
    refine ⟨?_, ?_, ?_, ?_, ?_, ?_⟩
    · simp [handleBlur, if_neg hne, hdecl, hp, HResult.isOk]
    · simp [handleBlur, if_neg hne, hdecl, hp, HResult.st, jsGet_jsSet]
    · simp [handleBlur, if_neg hne, hdecl, hp, HResult.st, jsGet_jsSet]
    · intro hd
      have hd' : ¬ st.previousValue = e.value := fun h => hd h.symm
      simp [handleBlur, if_neg hne, hdecl, hp, HResult.st, hd', jsGet_jsSet]
    · intro d' _
      constructor
      · simp [handleBlur, if_neg hne, hdecl, hp, HResult.st, jsGet_jsSet]
      · simp [handleBlur, if_neg hne, hdecl, hp, HResult.g]
    · intro issues hq
      exact Outcome.noConfusion hq
  | rejected issues0 =>
    refine ⟨?_, ?_, ?_, ?_, ?_, ?_⟩
    · simp [handleBlur, if_neg hne, hdecl, hp, HResult.isOk]
    · simp [handleBlur, if_neg hne, hdecl, hp, HResult.st, jsGet_jsSet]
    · simp [handleBlur, if_neg hne, hdecl, hp, HResult.st, jsGet_jsSet]
    · intro hd
      have hd' : ¬ st.previousValue = e.value := fun h => hd h.symm
      simp [handleBlur, if_neg hne, hdecl, hp, HResult.st, hd', jsGet_jsSet]
    · intro d' hq
      exact Outcome.noConfusion hq
    · intro issues' hq
      cases hq
      constructor
      · simp [handleBlur, if_neg hne, hdecl, hp, HResult.g]
      · simp [handleBlur, if_neg hne, hdecl, hp, HResult.st, jsGet_jsSet]

theorem handleChange_decl (S : Schema) (e : EventTarget) (g : Globals) (st : Inst)
    (fs : FieldSchema) (hne : e.name ≠ "") (hdecl : jsGet S.shape e.name = some fs) :
    (handleChange S e g st).isOk = true ∧
    jsGet (handleChange S e g st).st.values e.name = some (changeCoerce e) ∧
    (handleChange S e g st).g = g := by
  cases hp : fs.safeParse (changeCoerce e) with
  | accepted d =>
    refine ⟨?_, ?_, ?_⟩ <;>
      simp [handleChange, if_neg hne, hdecl, hp, HResult.isOk, HResult.st, HResult.g, jsGet_jsSet]
  | rejected issues =>
    refine ⟨?_, ?_, ?_⟩ <;>
      simp [handleChange, if_neg hne, hdecl, hp, HResult.isOk, HResult.st, HResult.g, jsGet_jsSet]

/-- C1: when the stored values record passes whole-record validation,
the submit handler calls the injected onSubmit callback exactly once
with the coerced record the validation produced, and afterwards the
values, touched, dirty and error maps all equal their
construction-time initial states and isSubmitting reads false. -/
theorem claim_C1 (S : Schema) (g : Globals) (st : Inst) (data : JsObj JsValue)
    (hacc : S.safeParse st.values = Outcome.accepted data) :
    (handleSubmit S g st).calls = [data] ∧
    (handleSubmit S g st).st.values = (initState S).values ∧
    (handleSubmit S g st).st.touched = (initState S).touched ∧
    (handleSubmit S g st).st.dirty = (initState S).dirty ∧
    (handleSubmit S g st).st.errors = (initState S).errors ∧
    isSubmitting (handleSubmit S g st).g = false := by
  refine ⟨?_, ?_, ?_, ?_, ?_, ?_⟩ <;>
    simp [handleSubmit, hacc, initState, isSubmitting]

/-- C1 witness: submitting a fresh schemaA instance, whose record
validation accepts, calls onSubmit once with the initial record and
leaves the reset state. -/
theorem claim_C1_witness :
    (handleSubmit schemaA initGlobals (initState schemaA)).calls = [initialValues schemaA] ∧
    (handleSubmit schemaA initGlobals (initState schemaA)).st.values = (initState schemaA).values ∧
    (handleSubmit schemaA initGlobals (initState schemaA)).st.touched = (initState schemaA).touched ∧
    (handleSubmit schemaA initGlobals (initState schemaA)).st.dirty = (initState schemaA).dirty ∧
    (handleSubmit schemaA initGlobals (initState schemaA)).st.errors = (initState schemaA).errors ∧
    isSubmitting (handleSubmit schemaA initGlobals (initState schemaA)).g = false :=
  claim_C1 schemaA initGlobals (initState schemaA) (initialValues schemaA) rfl

/-- C2: when whole-record validation rejects, the submit handler never
calls onSubmit; the resulting error map reads, at every key, the
message of the last rejection whose dash-joined path is that key (so
each rejection populates its joined path, last write winning, with no
accumulation); afterwards isValid with no argument reads false and
isSubmitting reads false. -/
theorem claim_C2 (S : Schema) (g : Globals) (st : Inst) (issues : List Rejection)
    (hrej : S.safeParse st.values = Outcome.rejected issues) :
    (handleSubmit S g st).calls = [] ∧
    (∀ k, jsGet (handleSubmit S g st).st.errors k = lastMatch k issues) ∧
    (∀ i ∈ issues, (lastMatch (joinPath i.path) issues).isSome = true) ∧
    isValid S (handleSubmit S g st).g (handleSubmit S g st).st none = some false ∧
    isSubmitting (handleSubmit S g st).g = false := by
  refine ⟨?_, ?_, ?_, ?_, ?_⟩
  · simp [handleSubmit, hrej]
  · intro k
    simp [handleSubmit, hrej, jsGet_buildSubmitErrors]
  · intro i hi
    exact lastMatch_isSome_of_mem hi
  · simp [handleSubmit, hrej, isValid]
  · simp [handleSubmit, hrej, isSubmitting]

/-- C2 witness: submitting a fresh schemaFirst instance, whose record
validation rejects the empty firstName, makes no onSubmit call, puts
the rejection message at the joined path, and leaves the form invalid
and not submitting. -/
theorem claim_C2_witness :
    (handleSubmit schemaFirst initGlobals (initState schemaFirst)).calls = [] ∧
    jsGet (handleSubmit schemaFirst initGlobals (initState schemaFirst)).st.errors "firstName" =
      some "Too short" ∧
    isValid schemaFirst (handleSubmit schemaFirst initGlobals (initState schemaFirst)).g
      (handleSubmit schemaFirst initGlobals (initState schemaFirst)).st none = some false ∧
    isSubmitting (handleSubmit schemaFirst initGlobals (initState schemaFirst)).g = false := by
  have h := claim_C2 schemaFirst initGlobals (initState schemaFirst)
    [⟨["firstName"], "Too short"⟩] rfl
  refine ⟨h.1, ?_, h.2.2.2.1, h.2.2.2.2⟩
  rw [h.2.1 "firstName"]
  rfl

/-- C3: a blur event naming a declared field merges the coerced value
into the values store and marks the field touched; dirty is set when
the raw value differs from the previousValue recorded at focus; on
field-level acceptance the error entry becomes empty and the valid
binding is recomputed by a whole-record validation of the updated
store; on rejection the valid binding becomes false and the error
entry becomes the rejection messages concatenated in validator order
with no separator. -/
theorem claim_C3 (S : Schema) (e : EventTarget) (g : Globals) (st : Inst)
    (fs : FieldSchema) (hne : e.name ≠ "") (hdecl : jsGet S.shape e.name = some fs) :
    (handleBlur S e g st).isOk = true ∧
    jsGet (handleBlur S e g st).st.values e.name = some (blurCoerce e) ∧
    jsGet (handleBlur S e g st).st.touched e.name = some true ∧
    (e.value ≠ st.previousValue → jsGet (handleBlur S e g st).st.dirty e.name = some true) ∧
    (∀ d, fs.safeParse (blurCoerce e) = Outcome.accepted d →
      jsGet (handleBlur S e g st).st.errors e.name = some "" ∧
      (handleBlur S e g st).g.valid =
        (S.safeParse (jsSet st.values e.name (blurCoerce e))).isAccepted) ∧
    (∀ issues, fs.safeParse (blurCoerce e) = Outcome.rejected issues →
      (handleBlur S e g st).g.valid = false ∧
      jsGet (handleBlur S e g st).st.errors e.name = some (concatMessages issues)) :=
  handleBlur_decl S e g st fs hne hdecl

/-- C3 witness: blurring firstName with the passing value Ann on a
fresh schemaFirst instance stores the string, marks touched and dirty,
clears the error entry, and leaves the valid binding true. -/
theorem claim_C3_witness :
    (handleBlur schemaFirst eAnn initGlobals (initState schemaFirst)).isOk = true ∧
    jsGet (handleBlur schemaFirst eAnn initGlobals (initState schemaFirst)).st.values
      "firstName" = some (JsValue.str "Ann") ∧
    jsGet (handleBlur schemaFirst eAnn initGlobals (initState schemaFirst)).st.touched
      "firstName" = some true ∧
    jsGet (handleBlur schemaFirst eAnn initGlobals (initState schemaFirst)).st.dirty
      "firstName" = some true ∧
    jsGet (handleBlur schemaFirst eAnn initGlobals (initState schemaFirst)).st.errors
      "firstName" = some "" ∧
    (handleBlur schemaFirst eAnn initGlobals (initState schemaFirst)).g.valid = true := by
  obtain ⟨h1, h2, h3, h4, h5, _⟩ :=
    claim_C3 schemaFirst eAnn initGlobals (initState schemaFirst) fsFirstName (by decide) rfl
  have ha := h5 (JsValue.str "Ann") (by decide)
  refine ⟨h1, ?_, ?_, ?_, ?_, ?_⟩
  · exact h2
  · exact h3
  · exact h4 (by decide)
  · exact ha.1
  · rw [ha.2]
    decide

/-- C4: the coercion applied by both handlers maps a checkbox input to
the boolean checked flag regardless of the raw text, a numeric input
to the Number parse of the raw text (with NaN, never zero, for
unparsable nonempty text), and anything else to the raw text; the blur
and change handlers apply one and the same rule and store its result. -/
theorem claim_C4 (e : EventTarget) :
    (e.tagName = "INPUT" → e.type = "checkbox" → blurCoerce e = JsValue.boolean e.checked) ∧
    (e.tagName = "INPUT" → e.type = "number" →
      blurCoerce e = JsValue.num (jsStringToNumber e.value)) ∧
    ((e.tagName = "INPUT" → e.type ≠ "checkbox" ∧ e.type ≠ "number") →
      blurCoerce e = JsValue.str e.value) ∧
    changeCoerce e = blurCoerce e ∧
    (∀ s : String, jsTrim s ≠ "" → parseIntString (jsTrim s) = none →
      jsStringToNumber s = JsNum.nan) ∧
    (∀ (S : Schema) (g : Globals) (st : Inst) (fs : FieldSchema),
      e.name ≠ "" → jsGet S.shape e.name = some fs →
      jsGet (handleBlur S e g st).st.values e.name = some (blurCoerce e) ∧
      jsGet (handleChange S e g st).st.values e.name = some (changeCoerce e)) := by
  refine ⟨?_, ?_, ?_, rfl, ?_, ?_⟩
  · intro h1 h2
    simp [blurCoerce, h1, h2]
  · intro h1 h2
    simp [blurCoerce, jsToNumber, h1, h2]
  · intro h
    by_cases h1 : e.tagName = "INPUT"
    · obtain ⟨hc, hn⟩ := h h1
      simp [blurCoerce, h1, hc, hn]
    · simp [blurCoerce, h1]
  · intro s h1 h2
    simp [jsStringToNumber, h1, h2]
  · intro S g st fs hne hdecl
    exact ⟨(handleBlur_decl S e g st fs hne hdecl).2.1,
      (handleChange_decl S e g st fs hne hdecl).2.1⟩

/-- C4 witness: the checked checkbox coerces to the boolean true, the
numeric text 42 to the number 42, the plain text event to its string,
the change and blur rules agree, abc parses to NaN, and a blur on
schemaA stores the coerced value. -/
theorem claim_C4_witness :
    blurCoerce eCheckbox = JsValue.boolean true ∧
    blurCoerce eNumber = JsValue.num (JsNum.int 42) ∧
    blurCoerce eGoodA = JsValue.str "x" ∧
    changeCoerce eCheckbox = blurCoerce eCheckbox ∧
    jsStringToNumber "abc" = JsNum.nan ∧
    jsGet (handleBlur schemaA eGoodA initGlobals (initState schemaA)).st.values "a" =
      some (blurCoerce eGoodA) := by
  have h1 := (claim_C4 eCheckbox).1 rfl rfl
  have h2 := (claim_C4 eNumber).2.1 rfl rfl
  have h3 := (claim_C4 eGoodA).2.2.1 (fun _ => ⟨by decide, by decide⟩)
  have h4 := (claim_C4 eCheckbox).2.2.2.1
  have h5 := (claim_C4 eGoodA).2.2.2.2.1 "abc" (by decide) (by decide)
  have h6 := ((claim_C4 eGoodA).2.2.2.2.2 schemaA initGlobals (initState schemaA) fsAny
    (by decide) rfl).1
  refine ⟨h1, ?_, h3, h4, h5, h6⟩
  rw [h2]
  decide

/-- C5: for a declared, nonvacuously named field, setField returns
false and leaves the whole instance state unchanged when the value
fails the field rule, and returns true, stores the value, marks
touched and dirty and clears the error entry when it passes. -/
theorem claim_C5 (S : Schema) (st : Inst) (f : String) (v : JsValue) (fs : FieldSchema)
    (hne : f ≠ "") (hdecl : jsGet S.shape f = some fs) :
    (∀ issues, fs.safeParse v = Outcome.rejected issues →
      setField S st f v = SetFieldResult.ok false st) ∧
    (∀ d, fs.safeParse v = Outcome.accepted d →
      (setField S st f v).res = some true ∧
      jsGet (setField S st f v).st.values f = some v ∧
      jsGet (setField S st f v).st.touched f = some true ∧
      jsGet (setField S st f v).st.dirty f = some true ∧
      jsGet (setField S st f v).st.errors f = some "") := by
  constructor
  · intro issues hq
    simp [setField, if_neg hne, hdecl, hq]
  · intro d hq
    refine ⟨?_, ?_, ?_, ?_, ?_⟩ <;>
      simp [setField, if_neg hne, hdecl, hq, SetFieldResult.res, SetFieldResult.st, jsGet_jsSet]

/-- C5 witness: on a fresh schemaFirst instance, setField with the
failing empty string returns false and changes nothing, while setField
with Ann returns true, stores the value, marks touched and dirty, and
clears the error entry. -/
theorem claim_C5_witness :
    setField schemaFirst (initState schemaFirst) "firstName" (JsValue.str "") =
      SetFieldResult.ok false (initState schemaFirst) ∧
    (setField schemaFirst (initState schemaFirst) "firstName" (JsValue.str "Ann")).res =
      some true ∧
    jsGet (setField schemaFirst (initState schemaFirst) "firstName"
      (JsValue.str "Ann")).st.values "firstName" = some (JsValue.str "Ann") ∧
    jsGet (setField schemaFirst (initState schemaFirst) "firstName"
      (JsValue.str "Ann")).st.touched "firstName" = some true ∧
    jsGet (setField schemaFirst (initState schemaFirst) "firstName"
      (JsValue.str "Ann")).st.dirty "firstName" = some true ∧
    jsGet (setField schemaFirst (initState schemaFirst) "firstName"
      (JsValue.str "Ann")).st.errors "firstName" = some "" := by
  have hr := (claim_C5 schemaFirst (initState schemaFirst) "firstName" (JsValue.str "")
    fsFirstName (by decide) rfl).1 [⟨["firstName"], "Too short"⟩] (by decide)
  have ha := (claim_C5 schemaFirst (initState schemaFirst) "firstName" (JsValue.str "Ann")
    fsFirstName (by decide) rfl).2 (JsValue.str "Ann") (by decide)
  exact ⟨hr, ha.1, ha.2.1, ha.2.2.1, ha.2.2.2.1, ha.2.2.2.2⟩

/-- C6 counterexample: on schemaA, a focus event naming the undeclared
field zzz introduces a brand-new key into the error and touched maps,
and a blur event naming it makes handleBlur throw, so an operation on
an undeclared field name is neither throw-free nor key-preserving. -/
theorem claim_C6_counterexample :
    jsHas schemaA.shape "zzz" = false ∧
    jsHas (handleFocus eUnknown (initState schemaA)).errors "zzz" = true ∧
    jsHas (handleFocus eUnknown (initState schemaA)).touched "zzz" = true ∧
    (handleBlur schemaA eUnknown initGlobals (initState schemaA)).isOk = false := by
  decide

/-- C6 amended: an operation whose field name is empty is a no-op (and
setField returns false); but for a nonempty name not declared in the
schema, handleFocus adds the name as a new key to the error and
touched maps without throwing, handleBlur first adds it to the touched
and values maps and then throws at the field-schema lookup, and
handleChange and setField throw at that lookup with no prior
mutation. -/
theorem claim_C6 (S : Schema) (e : EventTarget) (g : Globals) (st : Inst) (v : JsValue) :
    (e.name = "" →
      handleBlur S e g st = HResult.ok g st ∧
      handleChange S e g st = HResult.ok g st ∧
      handleFocus e st = st ∧
      setField S st e.name v = SetFieldResult.ok false st) ∧
    (e.name ≠ "" → jsHas S.shape e.name = false →
      jsHas (handleFocus e st).errors e.name = true ∧
      jsHas (handleFocus e st).touched e.name = true ∧
      (handleBlur S e g st).isOk = false ∧
      jsHas (handleBlur S e g st).st.touched e.name = true ∧
      jsHas (handleBlur S e g st).st.values e.name = true ∧
      handleChange S e g st = HResult.thrown g st ∧
      setField S st e.name v = SetFieldResult.thrown st) := by
  constructor
  · intro h0
    refine ⟨?_, ?_, ?_, ?_⟩
    · simp [handleBlur, h0]
    · simp [handleChange, h0]
    · simp [handleFocus, h0]
    · simp [setField, h0]
  · intro hne hundecl
    have hget : jsGet S.shape e.name = none := by
      rw [jsHas_eq_isSome] at hundecl
      cases hj : jsGet S.shape e.name with
      | none => rfl
      | some fs =>
        rw [hj] at hundecl
        simp at hundecl
    refine ⟨?_, ?_, ?_, ?_, ?_, ?_, ?_⟩
    · simp [handleFocus, hne, jsHas_jsSet_self]
    · simp [handleFocus, hne, jsHas_jsSet_self]
    · simp [handleBlur, if_neg hne, hget, HResult.isOk]
    · simp [handleBlur, if_neg hne, hget, HResult.st, jsHas_jsSet_self]
    · simp [handleBlur, if_neg hne, hget, HResult.st, jsHas_jsSet_self]
    · simp [handleChange, if_neg hne, hget]
    · simp [setField, if_neg hne, hget]

/-- C6 witness: on schemaA, the empty-named blur is a no-op, while the
operations naming the undeclared zzz behave as the amended claim says:
focus adds the key, blur throws after adding it to values, change and
setField just throw. -/
theorem claim_C6_witness :
    handleBlur schemaA eEmpty initGlobals (initState schemaA) =
      HResult.ok initGlobals (initState schemaA) ∧
    jsHas (handleFocus eUnknown (initState schemaA)).errors "zzz" = true ∧
    (handleBlur schemaA eUnknown initGlobals (initState schemaA)).isOk = false ∧
    jsHas (handleBlur schemaA eUnknown initGlobals (initState schemaA)).st.values "zzz" = true ∧
    handleChange schemaA eUnknown initGlobals (initState schemaA) =
      HResult.thrown initGlobals (initState schemaA) ∧
    setField schemaA (initState schemaA) "zzz" (JsValue.str "x") =
      SetFieldResult.thrown (initState schemaA) := by
  have hA := (claim_C6 schemaA eEmpty initGlobals (initState schemaA) (JsValue.str "x")).1 rfl
  have hB := (claim_C6 schemaA eUnknown initGlobals (initState schemaA) (JsValue.str "x")).2
    (by decide) (by decide)
  exact ⟨hA.1, hB.1, hB.2.2.1, hB.2.2.2.2.1, hB.2.2.2.2.2.1, hB.2.2.2.2.2.2⟩

/-- C7: evaluated at the failing input, a hook in controlled mode
asked for firstName through getField with the declared default
override returns the defaultValue-carrying uncontrolled projection,
not the value-carrying controlled one; the override is also ignored in
uncontrolled mode; the controlled projection only appears when the
instance mode and the per-call override are both controlled. -/
theorem claim_C7 :
    getField schemaFirst Mode.controlled (initState schemaFirst) "firstName"
      Mode.uncontrolled =
      some (UseZodField.uncontrolledField "firstName" (JsValue.str "") "First Name" "") ∧
    (getField schemaFirst Mode.controlled (initState schemaFirst) "firstName"
      Mode.uncontrolled).map UseZodField.isControlled = some false ∧
    (getField schemaFirst Mode.uncontrolled (initState schemaFirst) "firstName"
      Mode.controlled).map UseZodField.isControlled = some false ∧
    (getField schemaFirst Mode.controlled (initState schemaFirst) "firstName"
      Mode.controlled).map UseZodField.isControlled = some true := by
  decide

/-- C8: evaluated at the failing input, a freshly constructed
schemaFirst instance has every touched and dirty flag false, yet the
no-argument isTouched and isDirty both return true, because they count
the nonempty key names of the maps instead of the true flags. -/
theorem claim_C8 :
    isTouched (initState schemaFirst) none = true ∧
    (initState schemaFirst).touched = [("firstName", false)] ∧
    isTouched (initState schemaFirst) (some "firstName") = false ∧
    isDirty (initState schemaFirst) none = true ∧
    (initState schemaFirst).dirty = [("firstName", false)] ∧
    isDirty (initState schemaFirst) (some "firstName") = false := by
  decide

/-- C9: a focus event naming a declared field clears that field's
error entry even when it held a message, marks the field touched,
records the pre-edit value in the previousValue ref, and changes
nothing else: the values store, the dirty map, and every other field's
error and touched entries are untouched.  handleFocus takes no schema
and never reads the validator, so no validation can run. -/
theorem claim_C9 (S : Schema) (e : EventTarget) (st : Inst) (f : String)
    (hf : e.name = f) (hne : f ≠ "") (hdecl : jsHas S.shape f = true) :
    jsGet (handleFocus e st).errors f = some "" ∧
    jsGet (handleFocus e st).touched f = some true ∧
    (handleFocus e st).previousValue = e.value ∧
    (handleFocus e st).values = st.values ∧
    (handleFocus e st).dirty = st.dirty ∧
    (∀ f2, f2 ≠ f →
      jsGet (handleFocus e st).errors f2 = jsGet st.errors f2 ∧
      jsGet (handleFocus e st).touched f2 = jsGet st.touched f2) := by
  subst hf
  refine ⟨?_, ?_, ?_, ?_, ?_, ?_⟩
  · simp [handleFocus, hne, jsGet_jsSet]
  · simp [handleFocus, hne, jsGet_jsSet]
  · simp [handleFocus, hne]
  · simp [handleFocus, hne]
  · simp [handleFocus, hne]
  · intro f2 hf2
    have hne2 : ¬ e.name = f2 := fun h => hf2 h.symm
    constructor <;> simp [handleFocus, hne, jsGet_jsSet, hne2]

/-- C9 witness: focusing firstName on an instance that currently shows
a Too short message clears the message, marks the field touched,
records Jo as the previous value, and leaves values, dirty, and the
entries of other names unchanged. -/
theorem claim_C9_witness :
    jsGet (handleFocus eFocus stWithError).errors "firstName" = some "" ∧
    jsGet (handleFocus eFocus stWithError).touched "firstName" = some true ∧
    (handleFocus eFocus stWithError).previousValue = "Jo" ∧
    (handleFocus eFocus stWithError).values = stWithError.values ∧
    (handleFocus eFocus stWithError).dirty = stWithError.dirty ∧
    jsGet (handleFocus eFocus stWithError).errors "zzz" = jsGet stWithError.errors "zzz" := by
  have h := claim_C9 schemaFirst eFocus stWithError "firstName" rfl (by decide) (by decide)
  exact ⟨h.1, h.2.1, h.2.2.1, h.2.2.2.1, h.2.2.2.2.1, (h.2.2.2.2.2 "zzz" (by decide)).1⟩

/-- C10: the valid and submitting bindings live at module level, so
they are one shared cell per process; modelled by a single Globals
value threaded through every instance.  Concretely: after instance one
over schemaA blurs a passing value, its no-argument isValid reads
true, and after instance two over schemaFirst blurs a failing value,
instance one's no-argument isValid reads false even though instance
one's own state, initState schemaA, was never touched: two instances
run on disjoint inputs do not produce independent outputs. -/
theorem claim_C10 :
    isValid schemaA (handleBlur schemaA eGoodA initGlobals (initState schemaA)).g
      (initState schemaA) none = some true ∧
    isValid schemaA
      (handleBlur schemaFirst eBadFirst
        (handleBlur schemaA eGoodA initGlobals (initState schemaA)).g
        (initState schemaFirst)).g
      (initState schemaA) none = some false := by
  decide

end UseZodForm
